import Mathlib

/-!
Verification of the metadata extraction and classification pipeline of the
sd_comfyui_releases repository (src/core/metadata_engine.py,
src/core/enhanced_metadata_formatter.py, src/sorters/checkpoint_sorter.py).

The embedding models Python JSON-like values with the inductive type `JVal`
(Python `None` and JSON `null` are both `JVal.null`, matching the Python
runtime where they are the same object).  A node graph, i.e. the Python
`Dict[str, Any]` produced by `json.loads`, is an insertion-ordered
association list `List (String × JVal)`.  Python operations that can raise
(`entry.get` on a non-dict, `x in y` on a non-container, indexing, `.lower()`
on a non-string) are modelled in the `Except String` monad; the error string
is the Python exception class name.
-/

/-- Python/JSON value.  Numbers are modelled as integers: every numeric
literal appearing in the classification logic of the source is an integer. -/
inductive JVal where
  | str : String → JVal
  | num : Int → JVal
  | bool : Bool → JVal
  | null : JVal
  | arr : List JVal → JVal
  | obj : List (String × JVal) → JVal
deriving Repr

mutual

/-- Structural equality of Python values (Python `==` restricted to the
value shapes a JSON graph can hold; the source only compares strings and
containers of strings, where Python `==` is structural). -/
def JVal.beq : JVal → JVal → Bool
  | .str a, .str b => a == b
  | .num a, .num b => a == b
  | .bool a, .bool b => a == b
  | .null, .null => true
  | .arr a, .arr b => JVal.beqList a b
  | .obj a, .obj b => JVal.beqObjList a b
  | _, _ => false

/-- Elementwise equality of Python lists. -/
def JVal.beqList : List JVal → List JVal → Bool
  | [], [] => true
  | a :: as, b :: bs => JVal.beq a b && JVal.beqList as bs
  | _, _ => false

/-- Itemwise equality of Python dict item lists. -/
def JVal.beqObjList : List (String × JVal) → List (String × JVal) → Bool
  | [], [] => true
  | a :: as, b :: bs => a.1 == b.1 && JVal.beq a.2 b.2 && JVal.beqObjList as bs
  | _, _ => false

end

instance : BEq JVal := ⟨JVal.beq⟩

/-- Python truthiness (`bool(v)`). -/
def pyTruthy : JVal → Bool
  | .str s => s != ""
  | .num n => n != 0
  | .bool b => b
  | .null => false
  | .arr xs => !xs.isEmpty
  | .obj kvs => !kvs.isEmpty

/-- Whether `v` is a Python dict (`isinstance(v, dict)`). -/
def JVal.isObj : JVal → Bool
  | .obj _ => true
  | _ => false

/-- Whether the pattern (first argument) is an initial segment of the
second argument. -/
def leadingMatch : List Char → List Char → Bool
  | [], _ => true
  | _ :: _, [] => false
  | p :: ps, c :: cs => p == c && leadingMatch ps cs

/-- Whether the pattern occurs as a contiguous segment of the list. -/
def hasSubSeg (pat : List Char) : List Char → Bool
  | [] => leadingMatch pat []
  | c :: rest => leadingMatch pat (c :: rest) || hasSubSeg pat rest

/-- Substring test: Python `sub in s` for strings. -/
def strContains (s sub : String) : Bool :=
  hasSubSeg sub.toList s.toList

/-- Python `s.lower()` character by character; every string the source
lowercases (type tags, dict keys) is ASCII, where `Char.toLower` agrees
with Python. -/
def pyLowerStr (s : String) : String :=
  String.mk (s.toList.map Char.toLower)

/-- Python whitespace for `str.strip()`. -/
def isPySpace (c : Char) : Bool :=
  c == ' ' || c == '\t' || c == '\n' || c == '\r' || c == '\x0b' || c == '\x0c'

/-- Drop leading Python whitespace from a character list. -/
def dropPySpaces : List Char → List Char
  | [] => []
  | c :: rest => if isPySpace c then dropPySpaces rest else c :: rest

/-- Python `s.strip()`. -/
def pyStrip (s : String) : String :=
  String.mk ((dropPySpaces (dropPySpaces s.toList).reverse).reverse)

/-- Code-point lexicographic comparison of character lists, the order
Python `sorted` uses on strings. -/
def lexLeChars : List Char → List Char → Bool
  | [], _ => true
  | _ :: _, [] => false
  | a :: as, b :: bs =>
    if a.toNat < b.toNat then true
    else if b.toNat < a.toNat then false
    else lexLeChars as bs

/-- Python `s <= t` for strings (code-point lexicographic order). -/
def strLeB (s t : String) : Bool :=
  lexLeChars s.toList t.toList

/-- Python `v.get(key, dflt)`: only dicts have a `get` method, any other
value raises `AttributeError`. -/
def pyGet (v : JVal) (key : String) (dflt : JVal) : Except String JVal :=
  match v with
  | .obj kvs => .ok (((kvs.lookup key).getD dflt))
  | _ => .error "AttributeError"

/-- Python `key in v` for a string key: dict key membership, list element
membership, substring test on strings; `TypeError` otherwise. -/
def pyContains (key : String) (v : JVal) : Except String Bool :=
  match v with
  | .obj kvs => .ok (kvs.lookup key).isSome
  | .arr xs => .ok (xs.any (fun x => x == JVal.str key))
  | .str s => .ok (strContains s key)
  | _ => .error "TypeError"

/-- Python `v[key]` for a string key: dict indexing; lists and strings
require integer indices (`TypeError`), other values are not subscriptable. -/
def pyIndex (v : JVal) (key : String) : Except String JVal :=
  match v with
  | .obj kvs =>
    match kvs.lookup key with
    | some x => .ok x
    | none => .error "KeyError"
  | _ => .error "TypeError"

/-- Python `v.lower()`: only strings have `lower`. -/
def pyLower (v : JVal) : Except String String :=
  match v with
  | .str s => .ok (pyLowerStr s)
  | _ => .error "AttributeError"

/-- Python repr of a string uses single quotes (escape sequences inside the
string are not reproduced; no claim exercises them). -/
def quoteMark : String := (Char.ofNat 39).toString

mutual

/-- Python `str(v)` (equally, the interpolation done by an f-string).
Containers are rendered element-wise like the Python repr, modulo string
escape sequences, which no claim exercises. -/
def pyStr : JVal → String
  | .str s => s
  | .num n => toString n
  | .bool b => if b then "True" else "False"
  | .null => "None"
  | .arr xs => "[" ++ pyReprList xs ++ "]"
  | .obj kvs => "\x7b" ++ pyReprObjList kvs ++ "\x7d"

/-- Python `repr(v)`, as used for elements inside a container repr. -/
def pyRepr : JVal → String
  | .str s => quoteMark ++ s ++ quoteMark
  | .num n => toString n
  | .bool b => if b then "True" else "False"
  | .null => "None"
  | .arr xs => "[" ++ pyReprList xs ++ "]"
  | .obj kvs => "\x7b" ++ pyReprObjList kvs ++ "\x7d"

/-- Comma-separated reprs of list elements. -/
def pyReprList : List JVal → String
  | [] => ""
  | [x] => pyRepr x
  | x :: y :: xs => pyRepr x ++ ", " ++ pyReprList (y :: xs)

/-- Comma-separated `key: value` reprs of dict items. -/
def pyReprObjList : List (String × JVal) → String
  | [] => ""
  | [kv] => quoteMark ++ kv.1 ++ quoteMark ++ ": " ++ pyRepr kv.2
  | kv :: kv2 :: kvs =>
    quoteMark ++ kv.1 ++ quoteMark ++ ": " ++ pyRepr kv.2 ++ ", " ++
      pyReprObjList (kv2 :: kvs)

end

/-!
## Checkpoint classifier

`MetadataAnalyzer.extract_primary_checkpoint` (src/core/metadata_engine.py,
lines 190-236).  The Python loop variable named `title` is the key of the
metadata dict entry (not the `_meta.title` label); `str(title)` on a string
key is the identity.
-/

/-- Lines 210-211: `if base_ckpt in inputs and inputs[base_ckpt]:
base_ckpt = inputs[base_ckpt]`. -/
def epcOverride (inputs b0 : JVal) : Except String JVal :=
  match pyContains "base_ckpt" inputs with
  | .error err => .error err
  | .ok true =>
    match pyIndex inputs "base_ckpt" with
    | .error err => .error err
    | .ok v => .ok (if pyTruthy v then v else b0)
  | .ok false => .ok b0

/-- Lines 216-222: the `is_refiner` heuristic, with Python left-to-right
short-circuit evaluation (`class_type.lower()` is always evaluated first). -/
def epcIsRefiner (class_type : JVal) (title : String) (inputs : JVal) :
    Except String Bool :=
  match pyLower class_type with
  | .error err => .error err
  | .ok ct =>
    if strContains ct "refiner" then .ok true
    else if strContains title "refiner" then .ok true
    else match pyContains "start_at_step" inputs with
    | .error err => .error err
    | .ok true => .ok true
    | .ok false =>
      match pyContains "end_at_step" inputs with
      | .error err => .error err
      | .ok true => .ok true
      | .ok false =>
        match pyContains "refiner_ckpt" inputs with
        | .error err => .error err
        | .ok true => .ok true
        | .ok false => pyContains "refiner_model" inputs

/-- Lines 214-228: the standard `ckpt_name` classification, filling the
refiner slot or the base slot first-found-wins (`not refiner_ckpt` and
`not base_ckpt` are truthiness tests). -/
def epcStandard (class_type : JVal) (title : String) (inputs : JVal)
    (b r : JVal) : Except String (JVal × JVal) :=
  match pyContains "ckpt_name" inputs with
  | .error err => .error err
  | .ok false => .ok (b, r)
  | .ok true =>
    match pyIndex inputs "ckpt_name" with
    | .error err => .error err
    | .ok ckpt =>
      match epcIsRefiner class_type title inputs with
      | .error err => .error err
      | .ok true => .ok (b, if pyTruthy r then r else ckpt)
      | .ok false => .ok (if pyTruthy b then b else ckpt, r)

/-- Lines 230-233: `if field in inputs and not refiner_ckpt:
refiner_ckpt = inputs[field]` for one dedicated refiner field. -/
def epcRefinerField (field : String) (inputs r : JVal) : Except String JVal :=
  match pyContains field inputs with
  | .error err => .error err
  | .ok true => if pyTruthy r then .ok r else pyIndex inputs field
  | .ok false => .ok r

/-- One iteration of the `for title, entry in metadata.items()` loop
(lines 204-233).  The state is the pair `(base_ckpt, refiner_ckpt)`,
initialised to `(null, null)` for Python `None`. -/
def epcStep (acc : JVal × JVal) (e : String × JVal) :
    Except String (JVal × JVal) :=
  match pyGet e.2 "class_type" (.str "") with
  | .error err => .error err
  | .ok class_type =>
  match pyGet e.2 "inputs" (.obj []) with
  | .error err => .error err
  | .ok inputs =>
  let title := pyLowerStr e.1
  match epcOverride inputs acc.1 with
  | .error err => .error err
  | .ok b1 =>
  match epcStandard class_type title inputs b1 acc.2 with
  | .error err => .error err
  | .ok (b2, r1) =>
  match epcRefinerField "refiner_ckpt" inputs r1 with
  | .error err => .error err
  | .ok r2 =>
  match epcRefinerField "refiner_model" inputs r2 with
  | .error err => .error err
  | .ok r3 => .ok (b2, r3)

/-- The whole `for` loop of lines 204-233, threading `(base_ckpt,
refiner_ckpt)` left to right; a Python exception aborts the loop. -/
def epcLoop : List (String × JVal) → JVal × JVal →
    Except String (JVal × JVal)
  | [], acc => .ok acc
  | e :: rest, acc =>
    match epcStep acc e with
    | .error err => .error err
    | .ok acc2 => epcLoop rest acc2

/-- `MetadataAnalyzer.extract_primary_checkpoint` (lines 190-236):
`if not metadata: return None`, then the loop, then
`return base_ckpt or refiner_ckpt`. -/
def extract_primary_checkpoint (metadata : List (String × JVal)) :
    Except String JVal :=
  if metadata.isEmpty then .ok .null
  else match epcLoop metadata (.null, .null) with
    | .error err => .error err
    | .ok (b, r) => .ok (if pyTruthy b then b else r)

/-- The `inputs` dict the loop body reads from a node record
(`entry.get('inputs', {})`), for nodes that are dicts. -/
def nodeInputs (nd : JVal) : JVal :=
  match nd with
  | .obj kvs => (kvs.lookup "inputs").getD (.obj [])
  | _ => .obj []

/-- The value the base-checkpoint override branch (lines 210-211) would
write for a node record: `some v` exactly when the node has a truthy
`base_ckpt` input reachable without a Python exception. -/
def overrideVal (nd : JVal) : Option JVal :=
  match nd with
  | .obj _ =>
    match pyContains "base_ckpt" (nodeInputs nd) with
    | .ok true =>
      match pyIndex (nodeInputs nd) "base_ckpt" with
      | .ok v => if pyTruthy v then some v else none
      | .error _ => none
    | _ => none
  | _ => none

/-- The `ckpt_name` input of a node record, when present and readable. -/
def ckptNameVal (nd : JVal) : Option JVal :=
  match nd with
  | .obj _ =>
    match pyContains "ckpt_name" (nodeInputs nd) with
    | .ok true =>
      match pyIndex (nodeInputs nd) "ckpt_name" with
      | .ok v => some v
      | .error _ => none
    | _ => none
  | _ => none

/-!
## Grouping signature builder

`EnhancedMetadataFormatter.get_grouping_signature`
(src/core/enhanced_metadata_formatter.py, lines 96-122).  `get_base_model`
(lines 70-74) just delegates to `MetadataAnalyzer.extract_primary_checkpoint`.
-/

/-- The body of the LoRA collection loop (lines 102-110) for one node
record: `none` means the node is skipped (non-dict node, other class_type,
or no `lora_name` input), `some v` means `v` is appended to `loras`.
Python short-circuits `class_type == LoraLoader and lora_name in inputs`. -/
def loraEntry (nd : JVal) : Except String (Option JVal) :=
  if !nd.isObj then .ok none
  else
    match pyGet nd "class_type" (.str "") with
    | .error err => .error err
    | .ok class_type =>
    match pyGet nd "inputs" (.obj []) with
    | .error err => .error err
    | .ok inputs =>
    if class_type == JVal.str "LoraLoader" then
      match pyContains "lora_name" inputs with
      | .error err => .error err
      | .ok true =>
        match pyIndex inputs "lora_name" with
        | .error err => .error err
        | .ok v => .ok (some v)
      | .ok false => .ok none
    else .ok none

/-- The LoRA collection loop of lines 99-110, in iteration order. -/
def collectLoras : List (String × JVal) → Except String (List JVal)
  | [] => .ok []
  | e :: rest =>
    match loraEntry e.2 with
    | .error err => .error err
    | .ok o =>
      match collectLoras rest with
      | .error err => .error err
      | .ok tl => .ok (o.toList ++ tl)

/-- Line 113, `loras = sorted(set(loras))`, together with the later
`','.join(loras)` of line 117: in Python these raise a `TypeError` exactly
when the collected list holds a non-string (unhashable set element, an
unorderable mixed sort, or a non-string join argument); on an all-string
list they produce the lexicographically sorted list of distinct values. -/
def sortedLoraStrings (loras : List JVal) : Except String (List String) :=
  if loras.all (fun v => v matches .str _) then
    .ok (List.insertionSort (fun a b => strLeB a b = true)
      (loras.filterMap (fun v => match v with | .str s => some s | _ => none)).dedup)
  else .error "TypeError"

/-- `EnhancedMetadataFormatter.get_grouping_signature` (lines 96-122).
Returns a Python value: the f-string branch returns a string, the bare
`return base_part` branch returns `base_model or 'None'` unchanged. -/
def get_grouping_signature (metadata : List (String × JVal)) :
    Except String JVal :=
  match extract_primary_checkpoint metadata with
  | .error err => .error err
  | .ok base_model =>
  match collectLoras metadata with
  | .error err => .error err
  | .ok lorasRaw =>
  match sortedLoraStrings lorasRaw with
  | .error err => .error err
  | .ok loras =>
  let base_part := if pyTruthy base_model then base_model else .str "None"
  let lora_part := String.intercalate "," loras
  if lora_part != "" then .ok (.str (pyStr base_part ++ " | " ++ lora_part))
  else .ok base_part

/-!
## Text reference resolver

`EnhancedMetadataFormatter._resolve_text_node_reference`
(src/core/enhanced_metadata_formatter.py, lines 278-321).  The Python
function recurses with no depth parameter; the embedding therefore takes
explicit fuel, consumed once per call: a result of `none` means the call
did not return within the given fuel, and if that holds for every fuel the
Python recursion never returns (it exhausts the interpreter stack).
-/

/-- The `class_type` field of a dict node record. -/
def nodeClassType (nd : JVal) : JVal :=
  match nd with
  | .obj kvs => (kvs.lookup "class_type").getD (.str "")
  | _ => .str ""

/-- `metadata[node_id]` where `node_id` is an arbitrary Python value
compared against the string keys of the dict. -/
def graphLookup (metadata : List (String × JVal)) (nodeId : JVal) :
    Option JVal :=
  (metadata.find? (fun kv => JVal.str kv.1 == nodeId)).map (fun kv => kv.2)

/-- Line 319: `' '.join(str(item).strip() for item in text_data if item).strip()`. -/
def joinTextItems (xs : List JVal) : String :=
  pyStrip (String.intercalate " "
    ((xs.filter pyTruthy).map (fun item => pyStrip (pyStr item))))

/-- `_resolve_text_node_reference` with explicit fuel.  Inner `Except` is a
Python exception, inner `JVal` the returned `Optional[str]`
(`null` = Python `None`). -/
def resolve_text_node_reference :
    Nat → List (String × JVal) → JVal → Option (Except String JVal)
  | 0, _, _ => none
  | fuel + 1, metadata, nodeId =>
    match graphLookup metadata nodeId with
    | none => some (.ok .null)
    | some nd =>
      if !nd.isObj then some (.ok .null)
      else
        let class_type := nodeClassType nd
        let inputs := nodeInputs nd
        match pyContains "String Literal" class_type with
        | .error err => some (.error err)
        | .ok true =>
          match pyContains "string" inputs with
          | .error err => some (.error err)
          | .ok true =>
            match pyIndex inputs "string" with
            | .error err => some (.error err)
            | .ok v => some (.ok (.str (pyStrip (pyStr v))))
          | .ok false => some (.ok .null)
        | .ok false =>
        match pyContains "ShowText" class_type with
        | .error err => some (.error err)
        | .ok true =>
          match pyContains "text_0" inputs with
          | .error err => some (.error err)
          | .ok true =>
            match pyIndex inputs "text_0" with
            | .error err => some (.error err)
            | .ok v => some (.ok (.str (pyStrip (pyStr v))))
          | .ok false =>
            match pyContains "text" inputs with
            | .error err => some (.error err)
            | .ok true =>
              match pyIndex inputs "text" with
              | .error err => some (.error err)
              | .ok text_data =>
                match text_data with
                | .arr (x :: _) =>
                  resolve_text_node_reference fuel metadata x
                | .str s => some (.ok (.str (pyStrip s)))
                | _ => some (.ok .null)
            | .ok false => some (.ok .null)
        | .ok false =>
        match pyContains "Text Load Line From File" class_type with
        | .error err => some (.error err)
        | .ok true => some (.ok .null)
        | .ok false =>
          match pyContains "text" inputs with
          | .error err => some (.error err)
          | .ok true =>
            match pyIndex inputs "text" with
            | .error err => some (.error err)
            | .ok text_data =>
              match text_data with
              | .str s => some (.ok (.str (pyStrip s)))
              | .arr xs => some (.ok (.str (joinTextItems xs)))
              | _ => some (.ok .null)
          | .ok false => some (.ok .null)

/-!
## Metadata reader

`MetadataExtractor.extract_single` (src/core/metadata_engine.py, lines
36-97), below the point where the image file has been opened and its
metadata key/value slots (`img.info`) are available.  `json.loads` is an
external library function, modelled by the parameter
`parse : String → Option JVal` (`none` = `json.JSONDecodeError`).
-/

/-- The outcome of one `extract_single` call: which statistics counter is
incremented and what is returned (`noMetadata` and `failed` both return
Python `None`). -/
inductive ExtractOutcome where
  | success (md : JVal)
  | noMetadata
  | failed
deriving Repr, BEq

/-- `img.info.get(field)`. -/
def infoGet (info : List (String × JVal)) (k : String) : Option JVal :=
  info.lookup k

/-- Method 3 (lines 64-75): the fallback fields loop over `workflow`,
`extra_pnginfo`, `exif`.  Only here is `json.loads` guarded by a local
`try/except` whose handler says `continue`; a non-string truthy value is
returned as-is. -/
def extract_single_fallbacks (parse : String → Option JVal)
    (info : List (String × JVal)) : List String → ExtractOutcome
  | [] => .noMetadata
  | f :: fs =>
    match infoGet info f with
    | none => extract_single_fallbacks parse info fs
    | some data =>
      if pyTruthy data then
        match data with
        | .str s =>
          match parse s with
          | some md => .success md
          | none => extract_single_fallbacks parse info fs
        | _ => .success data
      else extract_single_fallbacks parse info fs

/-- Method 2 (lines 57-61): the `parameters` slot.  `json.loads` is not
guarded here: a parse failure (or a non-string truthy value, which makes
`json.loads` raise `TypeError`) falls into the outer catch-all handler of
lines 93-97, counting a failed extraction and returning `None`. -/
def extract_single_params (parse : String → Option JVal)
    (info : List (String × JVal)) : ExtractOutcome :=
  match infoGet info "parameters" with
  | some pd =>
    if pyTruthy pd then
      match pd with
      | .str s =>
        match parse s with
        | some md => .success md
        | none => .failed
      | _ => .failed
    else extract_single_fallbacks parse info ["workflow", "extra_pnginfo", "exif"]
  | none => extract_single_fallbacks parse info ["workflow", "extra_pnginfo", "exif"]

/-- Method 1 (lines 47-54): the `prompt` slot, with the same unguarded
`json.loads`; an absent or falsy (e.g. empty-string) slot falls through. -/
def extract_single (parse : String → Option JVal)
    (info : List (String × JVal)) : ExtractOutcome :=
  match infoGet info "prompt" with
  | some pd =>
    if pyTruthy pd then
      match pd with
      | .str s =>
        match parse s with
        | some md => .success md
        | none => .failed
      | _ => .failed
    else extract_single_params parse info
  | none => extract_single_params parse info

/-!
## Batch classifier

`CheckpointSorter._group_by_checkpoint` (src/sorters/checkpoint_sorter.py,
lines 167-209) and `_clean_checkpoint_name` (lines 315-333).
-/

/-- Index of the last occurrence of `c` in a character list
(Python `name.rfind(c)`, as `none` instead of `-1`). -/
def rfindIdx : List Char → Char → Option Nat
  | [], _ => none
  | x :: xs, c =>
    match rfindIdx xs c with
    | some i => some (i + 1)
    | none => if x = c then some 0 else none

/-- Split a character list at every occurrence of `c`
(Python `s.split(c)`). -/
def splitOnChar (c : Char) : List Char → List (List Char)
  | [] => [[]]
  | x :: rest =>
    match splitOnChar c rest with
    | [] => [[]]
    | g :: gs => if x == c then [] :: g :: gs else (x :: g) :: gs

/-- `PurePosixPath(p).stem`: the final path component without its last
extension; CPython keeps the name whole when the last dot is its first or
last character. -/
def pathStem (p : String) : String :=
  let cs := ((splitOnChar '/' p.toList).filter (fun g => !g.isEmpty)).getLastD []
  let name := String.mk cs
  match rfindIdx cs '.' with
  | some i => if 0 < i ∧ i < cs.length - 1 then String.mk (cs.take i) else name
  | none => name

/-- `CheckpointSorter._clean_checkpoint_name` (lines 315-333): stem, path
separators to underscores, filesystem-illegal characters to underscores,
cap at 50 characters. -/
def clean_checkpoint_name (checkpoint_path : String) : String :=
  let name := pathStem checkpoint_path
  -- `name.replace` with single-character patterns, then the character class
  -- of `re.sub`, all as character maps
  let name := String.mk (name.toList.map (fun c => if c == '\\' then '_' else c))
  let name := String.mk (name.toList.map (fun c => if c == '/' then '_' else c))
  let name := String.mk (name.toList.map
    (fun c => if ['<', '>', ':', '"', '|', '?', '*'].contains c then '_' else c))
  if name.length > 50 then String.mk (name.toList.take 50) else name

/-- Group accumulator of `_group_by_checkpoint`: the insertion-ordered
`checkpoint_groups` dict plus the two statistics counters the function
increments (`unknown_checkpoint` and `failed_extractions`). -/
structure GroupState where
  groups : List (String × List (String × String))
  unknown : Nat
  failed : Nat
deriving Repr, DecidableEq

/-- `checkpoint_groups.setdefault(key, []).append(fi)` on an
insertion-ordered dict. -/
def addToGroup (gs : List (String × List (String × String)))
    (key : String) (fi : String × String) :
    List (String × List (String × String)) :=
  if (gs.lookup key).isSome then
    gs.map (fun g => if g.1 == key then (g.1, g.2 ++ [fi]) else g)
  else gs ++ [(key, [fi])]

/-- One iteration of the `for file_path, rel_path in png_files` loop
(lines 175-203).  `results` models `metadata_results.get`; `none` stands
both for an absent key and for a stored Python `None` (indistinguishable to
the truthiness test).  `Path(non_string)` inside `_clean_checkpoint_name`
raises `TypeError`. -/
def groupStep (results : String → Option (List (String × JVal)))
    (st : GroupState) (fi : String × String) : Except String GroupState :=
  let md := (results fi.1).getD []
  if md.isEmpty then
    .ok { st with groups := addToGroup st.groups "No_Metadata" fi,
                  failed := st.failed + 1 }
  else
    match extract_primary_checkpoint md with
    | .error err => .error err
    | .ok primary =>
      if pyTruthy primary then
        match primary with
        | .str s =>
          .ok { st with groups := addToGroup st.groups (clean_checkpoint_name s) fi }
        | _ => .error "TypeError"
      else
        .ok { st with groups := addToGroup st.groups "Unknown_Checkpoint" fi,
                      unknown := st.unknown + 1 }

/-- The loop of lines 175-203; an uncaught Python exception from
`extract_primary_checkpoint` aborts it. -/
def groupLoop (results : String → Option (List (String × JVal))) :
    List (String × String) → GroupState → Except String GroupState
  | [], st => .ok st
  | fi :: rest, st =>
    match groupStep results st fi with
    | .error err => .error err
    | .ok st2 => groupLoop results rest st2

/-- `CheckpointSorter._group_by_checkpoint` (lines 167-209), with the
statistics counters starting at zero for the batch. -/
def group_by_checkpoint (png_files : List (String × String))
    (results : String → Option (List (String × JVal))) :
    Except String GroupState :=
  groupLoop results png_files ⟨[], 0, 0⟩

/-!
## Concrete inputs used by the claims
-/

/-- The spec scenario graph exactly as printed in the spec: the node tag is
stored under the key `type`. -/
def specScenarioGraphLiteral : List (String × JVal) :=
  [("1", .obj [("type", .str "CheckpointLoader"),
               ("inputs", .obj [("ckpt_name", .str "sdxl_base.safetensors")])]),
   ("2", .obj [("type", .str "LoraLoader"),
               ("inputs", .obj [("lora_name", .str "style_a.safetensors")])]),
   ("3", .obj [("type", .str "LoraLoader"),
               ("inputs", .obj [("lora_name", .str "style_b.safetensors")])])]

/-- The spec scenario graph in the key format the code actually reads (and
that ComfyUI prompt metadata actually uses): the tag is under `class_type`. -/
def specScenarioGraph : List (String × JVal) :=
  [("1", .obj [("class_type", .str "CheckpointLoader"),
               ("inputs", .obj [("ckpt_name", .str "sdxl_base.safetensors")])]),
   ("2", .obj [("class_type", .str "LoraLoader"),
               ("inputs", .obj [("lora_name", .str "style_a.safetensors")])]),
   ("3", .obj [("class_type", .str "LoraLoader"),
               ("inputs", .obj [("lora_name", .str "style_b.safetensors")])])]

/-- As `specScenarioGraph` but with the two LoraLoader nodes swapped in
insertion/iteration order. -/
def specScenarioGraphSwapped : List (String × JVal) :=
  [("1", .obj [("class_type", .str "CheckpointLoader"),
               ("inputs", .obj [("ckpt_name", .str "sdxl_base.safetensors")])]),
   ("3", .obj [("class_type", .str "LoraLoader"),
               ("inputs", .obj [("lora_name", .str "style_b.safetensors")])]),
   ("2", .obj [("class_type", .str "LoraLoader"),
               ("inputs", .obj [("lora_name", .str "style_a.safetensors")])])]

/-- One base-tagged checkpoint node plus one refiner-tagged checkpoint node,
the refiner identified by a `start_at_step: 5` input (spec base-precedence
scenario). -/
def baseRefinerGraph : List (String × JVal) :=
  [("1", .obj [("class_type", .str "CheckpointLoaderSimple"),
               ("inputs", .obj [("ckpt_name", .str "sdxl_base.safetensors")])]),
   ("2", .obj [("class_type", .str "CheckpointLoaderSimple"),
               ("inputs", .obj [("ckpt_name", .str "sdxl_refiner.safetensors"),
                                ("start_at_step", .num 5)])])]

/-- Only the refiner-tagged checkpoint node (spec refiner-only fallback
scenario). -/
def refinerOnlyGraph : List (String × JVal) :=
  [("2", .obj [("class_type", .str "CheckpointLoaderSimple"),
               ("inputs", .obj [("ckpt_name", .str "sdxl_refiner.safetensors"),
                                ("start_at_step", .num 5)])])]

/-- A node whose `base_ckpt` input is present but the empty string, followed
by a standard checkpoint node. -/
def emptyOverrideGraph : List (String × JVal) :=
  [("1", .obj [("class_type", .str "Loader"),
               ("inputs", .obj [("base_ckpt", .str "")])]),
   ("2", .obj [("class_type", .str "CheckpointLoaderSimple"),
               ("inputs", .obj [("ckpt_name", .str "model.safetensors")])])]

/-- A standard base node, then a truthy `base_ckpt` override node, then a
later standard node: the override must win. -/
def overrideWinsGraph : List (String × JVal) :=
  [("1", .obj [("class_type", .str "CheckpointLoaderSimple"),
               ("inputs", .obj [("ckpt_name", .str "first.safetensors")])]),
   ("2", .obj [("class_type", .str "Loader"),
               ("inputs", .obj [("base_ckpt", .str "override.safetensors")])]),
   ("3", .obj [("class_type", .str "CheckpointLoaderSimple"),
               ("inputs", .obj [("ckpt_name", .str "later.safetensors")])])]

/-- A checkpoint node whose human-assigned `_meta.title` label contains
`refiner` but whose graph key, class_type and inputs carry no refiner
signal. -/
def metaTitleRefinerGraph : List (String × JVal) :=
  [("1", .obj [("class_type", .str "CheckpointLoaderSimple"),
               ("_meta", .obj [("title", .str "Refiner Loader")]),
               ("inputs", .obj [("ckpt_name", .str "ref.safetensors")])]),
   ("2", .obj [("class_type", .str "CheckpointLoaderSimple"),
               ("inputs", .obj [("ckpt_name", .str "base.safetensors")])])]

/-- A checkpoint node stored under a graph key containing `refiner`,
followed by a plain base checkpoint node. -/
def keyRefinerGraph : List (String × JVal) :=
  [("refiner ckpt", .obj [("class_type", .str "CheckpointLoaderSimple"),
               ("inputs", .obj [("ckpt_name", .str "ref.safetensors")])]),
   ("2", .obj [("class_type", .str "CheckpointLoaderSimple"),
               ("inputs", .obj [("ckpt_name", .str "base.safetensors")])])]

/-- A two-node ShowText reference cycle: node A holds a reference to node B
and node B a reference back to node A. -/
def cycleGraph : List (String × JVal) :=
  [("A", .obj [("class_type", .str "ShowText"),
               ("inputs", .obj [("text", .arr [.str "B", .num 0])])]),
   ("B", .obj [("class_type", .str "ShowText"),
               ("inputs", .obj [("text", .arr [.str "A", .num 0])])])]

/-- A graph whose single node entry is a list, not a dict. -/
def nonDictNodeGraph : List (String × JVal) :=
  [("1", .arr [.num 1, .num 2])]

/-- A toy stand-in for `json.loads`: parses exactly the two-character string
of an empty JSON object, fails on everything else. -/
def toyParse : String → Option JVal :=
  fun s => if s = "\x7b\x7d" then some (.obj []) else none

/-- Image info slots with a malformed `prompt` and a well-formed
`parameters` (relative to `toyParse`). -/
def badPromptInfo : List (String × JVal) :=
  [("prompt", .str "not json"), ("parameters", .str "\x7b\x7d")]

/-- Image info slots with an empty-string `prompt` and a well-formed
`parameters`. -/
def emptyPromptInfo : List (String × JVal) :=
  [("prompt", .str ""), ("parameters", .str "\x7b\x7d")]

/-- The batch scenario of the spec: two files sharing a checkpoint, one
file with no metadata at all. -/
def scenarioFiles : List (String × String) :=
  [("f1.png", ""), ("f2.png", ""), ("f3.png", "")]

/-- Metadata results for `scenarioFiles`: `f1` and `f2` share the base
checkpoint graph, `f3` has none. -/
def scenarioResults : String → Option (List (String × JVal)) :=
  fun p => if p == "f1.png" || p == "f2.png" then some specScenarioGraph else none

/-- A single file whose extraction produced an empty (but present) graph. -/
def emptyGraphFiles : List (String × String) := [("f.png", "")]

/-- Results mapping every file to the empty graph. -/
def emptyGraphResults : String → Option (List (String × JVal)) :=
  fun _ => some []

/-!
## Specification-side helper predicates
-/

/-- The value that one LoRA loop iteration appends, seen as a pure partial
function (meaningful on entries whose `loraEntry` does not raise). -/
def loraEntryVal (nd : JVal) : Option JVal :=
  match loraEntry nd with
  | .ok o => o
  | .error _ => none

/-- A batch file whose metadata is absent or an empty (falsy) graph. -/
def fileNoGraph (results : String → Option (List (String × JVal)))
    (fi : String × String) : Bool :=
  ((results fi.1).getD []).isEmpty

/-- A batch file whose metadata is a truthy graph in which no truthy
primary checkpoint is found (the error branch cannot co-occur with a
successful batch pass and is set to `false`). -/
def fileUnknownCkpt (results : String → Option (List (String × JVal)))
    (fi : String × String) : Bool :=
  let md := (results fi.1).getD []
  !md.isEmpty &&
    (match extract_primary_checkpoint md with
     | .ok v => !pyTruthy v
     | .error _ => false)

/-- The checkpoint node record stored under the refiner-marked key of
`keyRefinerGraph`. -/
def keyRefinerNode : JVal :=
  .obj [("class_type", .str "CheckpointLoaderSimple"),
        ("inputs", .obj [("ckpt_name", .str "ref.safetensors")])]

/-- The expected classifier output for the spec batch scenario: `f1` and
`f2` under the cleaned checkpoint name, `f3` in the no-metadata sentinel
group, one failed extraction, no unknown checkpoint. -/
def scenarioGroupState : GroupState :=
  ⟨[("sdxl_base", [("f1.png", ""), ("f2.png", "")]),
    ("No_Metadata", [("f3.png", "")])], 0, 1⟩

/-!
## Order properties of the sort relation
-/

instance : IsTotal String (fun a b => strLeB a b = true) := by
  constructor
  intro s t
  show lexLeChars s.toList t.toList = true ∨ lexLeChars t.toList s.toList = true
  generalize s.toList = a
  generalize t.toList = b
  induction a generalizing b with
  | nil => left; rfl
  | cons x xs ih =>
    cases b with
    | nil => right; rfl
    | cons y ys =>
      rcases Nat.lt_trichotomy x.toNat y.toNat with h | h | h
      · left; simp [lexLeChars, h]
      · have h1 : ¬ x.toNat < y.toNat := by omega
        have h2 : ¬ y.toNat < x.toNat := by omega
        rcases ih ys with h3 | h3
        · left; simp [lexLeChars, h1, h2, h3]
        · right; simp [lexLeChars, h1, h2, h3]
      · right; simp [lexLeChars, h]

instance : IsTrans String (fun a b => strLeB a b = true) := by
  constructor
  intro s t u hst htu
  show lexLeChars s.toList u.toList = true
  rw [show (strLeB s t = true) = (lexLeChars s.toList t.toList = true) from rfl] at hst
  rw [show (strLeB t u = true) = (lexLeChars t.toList u.toList = true) from rfl] at htu
  generalize hga : s.toList = a at hst
  generalize hgb : t.toList = b at hst htu
  generalize hgc : u.toList = c at htu
  clear hga hgb hgc
  induction a generalizing b c with
  | nil => rfl
  | cons x xs ih =>
    cases b with
    | nil => simp [lexLeChars] at hst
    | cons y ys =>
      cases c with
      | nil => simp [lexLeChars] at htu
      | cons z zs =>
        by_cases hxy : x.toNat < y.toNat
        · by_cases hyz : y.toNat < z.toNat
          · simp [lexLeChars, show x.toNat < z.toNat by omega]
          · by_cases hzy : z.toNat < y.toNat
            · simp [lexLeChars, hyz, hzy] at htu
            · simp [lexLeChars, show x.toNat < z.toNat by omega]
        · by_cases hyx : y.toNat < x.toNat
          · simp [lexLeChars, hxy, hyx] at hst
          · by_cases hyz : y.toNat < z.toNat
            · simp [lexLeChars, show x.toNat < z.toNat by omega]
            · by_cases hzy : z.toNat < y.toNat
              · simp [lexLeChars, hyz, hzy] at htu
              · have hxz : ¬ x.toNat < z.toNat := by omega
                have hzx : ¬ z.toNat < x.toNat := by omega
                simp only [lexLeChars, hxy, hyx, if_neg, if_false] at hst
                simp only [lexLeChars, hyz, hzy, if_neg, if_false] at htu
                simp only [lexLeChars, hxz, hzx, if_neg, if_false]
                exact ih _ hst _ htu

instance : IsAntisymm String (fun a b => strLeB a b = true) := by
  constructor
  intro s t hst hts
  rw [show (strLeB s t = true) = (lexLeChars s.toList t.toList = true) from rfl] at hst
  rw [show (strLeB t s = true) = (lexLeChars t.toList s.toList = true) from rfl] at hts
  have key : ∀ (a b : List Char), lexLeChars a b = true → lexLeChars b a = true → a = b := by
    intro a
    induction a with
    | nil => intro b h1 h2; cases b with
      | nil => rfl
      | cons y ys => simp [lexLeChars] at h2
    | cons x xs ih =>
      intro b h1 h2
      cases b with
      | nil => simp [lexLeChars] at h1
      | cons y ys =>
        by_cases hxy : x.toNat < y.toNat
        · simp [lexLeChars, hxy, show ¬ y.toNat < x.toNat by omega] at h2
        · by_cases hyx : y.toNat < x.toNat
          · simp [lexLeChars, hxy, hyx] at h1
          · have hn : x.toNat = y.toNat := by omega
            have hv : x = y := Char.ext (UInt32.ext hn)
            simp only [lexLeChars, hxy, hyx, if_neg, if_false] at h1 h2
            rw [hv, ih ys h1 h2]
  have hl := key _ _ hst hts
  cases s with
  | mk d1 =>
    cases t with
    | mk d2 => exact congrArg String.mk (by simpa using hl)

/-!
# Theorems

Shared helper lemmas first, then one theorem per claim, with a witness or
counterexample where the status requires one.
-/

theorem epcLoop_append (g1 g2 : List (String × JVal)) (acc : JVal × JVal) :
    epcLoop (g1 ++ g2) acc =
      match epcLoop g1 acc with
      | .error err => .error err
      | .ok acc2 => epcLoop g2 acc2 := by
  induction g1 generalizing acc with
  | nil => simp [epcLoop]
  | cons e rest ih =>
    simp only [List.cons_append, epcLoop]
    cases epcStep acc e with
    | error err => rfl
    | ok acc2 => exact ih acc2

theorem epcStep_obj (kvs : List (String × JVal)) (k : String) (b r : JVal) :
    epcStep (b, r) (k, .obj kvs) =
      match epcOverride (nodeInputs (.obj kvs)) b with
      | .error err => .error err
      | .ok b1 =>
      match epcStandard (nodeClassType (.obj kvs)) (pyLowerStr k)
          (nodeInputs (.obj kvs)) b1 r with
      | .error err => .error err
      | .ok (b2, r1) =>
      match epcRefinerField "refiner_ckpt" (nodeInputs (.obj kvs)) r1 with
      | .error err => .error err
      | .ok r2 =>
      match epcRefinerField "refiner_model" (nodeInputs (.obj kvs)) r2 with
      | .error err => .error err
      | .ok r3 => .ok (b2, r3) := rfl

theorem overrideVal_some_spec {nd v : JVal} (h : overrideVal nd = some v) :
    pyContains "base_ckpt" (nodeInputs nd) = .ok true ∧
    pyIndex (nodeInputs nd) "base_ckpt" = .ok v ∧ pyTruthy v = true := by
  unfold overrideVal at h
  split at h
  · split at h
    · split at h
      · split at h
        · exact ⟨by assumption, by simp_all, by simp_all⟩
        · simp at h
      · simp at h
    · simp at h
  · simp at h

theorem epcOverride_of_some {nd v b : JVal} (h : overrideVal nd = some v) :
    epcOverride (nodeInputs nd) b = .ok v := by
  obtain ⟨h1, h2, h3⟩ := overrideVal_some_spec h
  unfold epcOverride
  rw [h1, h2]
  simp [h3]

theorem epcOverride_of_none {nd b b1 : JVal} (h : overrideVal nd = none)
    (ho : epcOverride (nodeInputs nd) b = .ok b1) : b1 = b := by
  unfold epcOverride at ho
  cases hq : pyContains "base_ckpt" (nodeInputs nd) with
  | error err => rw [hq] at ho; simp at ho
  | ok cb =>
    rw [hq] at ho
    cases cb with
    | false => simp at ho; exact ho.symm
    | true =>
      cases hx : pyIndex (nodeInputs nd) "base_ckpt" with
      | error err => rw [hx] at ho; simp at ho
      | ok v =>
        rw [hx] at ho
        simp only at ho
        cases nd with
        | obj kvs =>
          simp only [overrideVal] at h
          rw [hq, hx] at h
          simp only at h
          by_cases htv : pyTruthy v = true
          · rw [if_pos htv] at h; simp at h
          · rw [Bool.not_eq_true] at htv
            rw [htv] at ho
            simp at ho
            exact ho.symm
        | str s => simp [nodeInputs, pyContains, List.lookup] at hq
        | num n => simp [nodeInputs, pyContains, List.lookup] at hq
        | bool bb => simp [nodeInputs, pyContains, List.lookup] at hq
        | null => simp [nodeInputs, pyContains, List.lookup] at hq
        | arr xs => simp [nodeInputs, pyContains, List.lookup] at hq

theorem epcStep_obj_ok {kvs : List (String × JVal)} {k : String}
    {b r : JVal} {out : JVal × JVal}
    (h : epcStep (b, r) (k, .obj kvs) = .ok out) :
    ∃ b1 p r2 r3,
      epcOverride (nodeInputs (.obj kvs)) b = .ok b1 ∧
      epcStandard (nodeClassType (.obj kvs)) (pyLowerStr k)
        (nodeInputs (.obj kvs)) b1 r = .ok p ∧
      epcRefinerField "refiner_ckpt" (nodeInputs (.obj kvs)) p.2 = .ok r2 ∧
      epcRefinerField "refiner_model" (nodeInputs (.obj kvs)) r2 = .ok r3 ∧
      out = (p.1, r3) := by
  rw [epcStep_obj] at h
  cases h1 : epcOverride (nodeInputs (.obj kvs)) b with
  | error e => rw [h1] at h; simp at h
  | ok b1 =>
    rw [h1] at h
    dsimp only at h
    cases h2 : epcStandard (nodeClassType (.obj kvs)) (pyLowerStr k)
        (nodeInputs (.obj kvs)) b1 r with
    | error e => rw [h2] at h; simp at h
    | ok p =>
      obtain ⟨b2, r1⟩ := p
      rw [h2] at h
      dsimp only at h
      cases h3 : epcRefinerField "refiner_ckpt" (nodeInputs (.obj kvs)) r1 with
      | error e => rw [h3] at h; simp at h
      | ok r2 =>
        rw [h3] at h
        dsimp only at h
        cases h4 : epcRefinerField "refiner_model" (nodeInputs (.obj kvs)) r2 with
        | error e => rw [h4] at h; simp at h
        | ok r3 =>
          rw [h4] at h
          dsimp only at h
          refine ⟨b1, (b2, r1), r2, r3, rfl, h2, h3, h4, ?_⟩
          simp at h
          exact h.symm

theorem epcStep_not_obj {k : String} {nd b r : JVal} (h : nd.isObj = false) :
    epcStep (b, r) (k, nd) = .error "AttributeError" := by
  cases nd with
  | obj kvs => simp [JVal.isObj] at h
  | str s => rfl
  | num n => rfl
  | bool bb => rfl
  | null => rfl
  | arr xs => rfl

theorem epcStandard_base_of_truthy {ct : JVal} {t : String} {i b r b2 r2 : JVal}
    (hb : pyTruthy b = true)
    (h : epcStandard ct t i b r = .ok (b2, r2)) : b2 = b := by
  unfold epcStandard at h
  split at h
  · simp at h
  · simp at h; exact h.1.symm
  · split at h
    · simp at h
    · split at h
      · simp at h
      · simp at h; exact h.1.symm
      · rw [hb] at h; simp at h; exact h.1.symm

theorem epcRefinerField_of_truthy {f : String} {i r r2 : JVal}
    (hr : pyTruthy r = true)
    (h : epcRefinerField f i r = .ok r2) : r2 = r := by
  unfold epcRefinerField at h
  split at h
  · simp at h
  · rw [hr] at h; simp at h; exact h.symm
  · simp at h; exact h.symm

theorem epcStep_base_of_override {k : String} {nd b r b2 r2 v : JVal}
    (hov : overrideVal nd = some v)
    (h : epcStep (b, r) (k, nd) = .ok (b2, r2)) : b2 = v := by
  cases nd with
  | obj kvs =>
    obtain ⟨b1, p, r2x, r3, h1, h2, _h3, _h4, hout⟩ := epcStep_obj_ok h
    have hb1 : b1 = v := by
      have := epcOverride_of_some (b := b) hov
      rw [this] at h1
      simpa using h1.symm
    have htv : pyTruthy v = true := (overrideVal_some_spec hov).2.2
    obtain ⟨p1, p2⟩ := p
    have hp : p1 = b1 :=
      epcStandard_base_of_truthy (by rw [hb1]; exact htv) h2
    simp only [Prod.mk.injEq] at hout
    rw [hout.1, hp, hb1]
  | str s => simp [epcStep, pyGet] at h
  | num n => simp [epcStep, pyGet] at h
  | bool bb => simp [epcStep, pyGet] at h
  | null => simp [epcStep, pyGet] at h
  | arr xs => simp [epcStep, pyGet] at h

theorem epcStep_base_preserved {k : String} {nd b r b2 r2 : JVal}
    (hov : overrideVal nd = none) (hb : pyTruthy b = true)
    (h : epcStep (b, r) (k, nd) = .ok (b2, r2)) : b2 = b := by
  cases nd with
  | obj kvs =>
    obtain ⟨b1, p, r2x, r3, h1, h2, _h3, _h4, hout⟩ := epcStep_obj_ok h
    have hb1 : b1 = b := epcOverride_of_none hov h1
    obtain ⟨p1, p2⟩ := p
    have hp : p1 = b1 :=
      epcStandard_base_of_truthy (by rw [hb1]; exact hb) h2
    simp only [Prod.mk.injEq] at hout
    rw [hout.1, hp, hb1]
  | str s => simp [epcStep, pyGet] at h
  | num n => simp [epcStep, pyGet] at h
  | bool bb => simp [epcStep, pyGet] at h
  | null => simp [epcStep, pyGet] at h
  | arr xs => simp [epcStep, pyGet] at h

theorem epcLoop_base_preserved {g : List (String × JVal)} {b r b2 r2 : JVal}
    (hb : pyTruthy b = true)
    (hov : ∀ e ∈ g, overrideVal e.2 = none)
    (h : epcLoop g (b, r) = .ok (b2, r2)) : b2 = b := by
  induction g generalizing b r with
  | nil => simp [epcLoop] at h; exact h.1.symm
  | cons e rest ih =>
    simp only [epcLoop] at h
    cases hstep : epcStep (b, r) e with
    | error err => rw [hstep] at h; simp at h
    | ok acc2 =>
      rw [hstep] at h
      dsimp only at h
      obtain ⟨b1, r1⟩ := acc2
      obtain ⟨ke, nde⟩ := e
      have h1 : b1 = b :=
        epcStep_base_preserved (hov (ke, nde) (by simp)) hb hstep
      subst h1
      exact ih hb (fun e2 he2 => hov e2 (by simp [he2])) h

theorem ckptNameVal_spec {nd v : JVal} (h : ckptNameVal nd = some v) :
    pyContains "ckpt_name" (nodeInputs nd) = .ok true ∧
    pyIndex (nodeInputs nd) "ckpt_name" = .ok v := by
  unfold ckptNameVal at h
  split at h
  · split at h
    · split at h
      · exact ⟨by assumption, by simp_all⟩
      · simp at h
    · simp at h
  · simp at h

theorem epcIsRefiner_true_of_title {ct : JVal} {t : String} {i : JVal}
    {x : Bool} (ht : strContains t "refiner" = true)
    (h : epcIsRefiner ct t i = .ok x) : x = true := by
  unfold epcIsRefiner at h
  split at h
  · simp at h
  · split at h
    · simp at h; exact h
    · simp [ht] at h; exact h

theorem epcStandard_base_of_refiner {ct : JVal} {t : String}
    {i b r b2 r2 : JVal}
    (hisr : ∀ x, epcIsRefiner ct t i = .ok x → x = true)
    (h : epcStandard ct t i b r = .ok (b2, r2)) : b2 = b := by
  unfold epcStandard at h
  cases hcn : pyContains "ckpt_name" i with
  | error e => rw [hcn] at h; simp at h
  | ok cb =>
    rw [hcn] at h
    cases cb with
    | false => simp at h; exact h.1.symm
    | true =>
      dsimp only at h
      cases hidx : pyIndex i "ckpt_name" with
      | error e => rw [hidx] at h; simp at h
      | ok v =>
        rw [hidx] at h
        dsimp only at h
        cases hir : epcIsRefiner ct t i with
        | error e => rw [hir] at h; simp at h
        | ok x =>
          have hx := hisr x hir
          subst hx
          rw [hir] at h
          dsimp only at h
          simp at h
          exact h.1.symm

theorem epcStandard_refiner_fill {ct : JVal} {t : String}
    {i b r b2 r2 v : JVal}
    (hisr : ∀ x, epcIsRefiner ct t i = .ok x → x = true)
    (hcn : pyContains "ckpt_name" i = .ok true)
    (hidx : pyIndex i "ckpt_name" = .ok v)
    (hr : pyTruthy r = false)
    (h : epcStandard ct t i b r = .ok (b2, r2)) : b2 = b ∧ r2 = v := by
  unfold epcStandard at h
  rw [hcn] at h
  dsimp only at h
  rw [hidx] at h
  dsimp only at h
  cases hir : epcIsRefiner ct t i with
  | error e => rw [hir] at h; simp at h
  | ok x =>
    have hx := hisr x hir
    subst hx
    rw [hir] at h
    dsimp only at h
    rw [hr] at h
    simp at h
    exact ⟨h.1.symm, h.2.symm⟩

/-- C2: for every graph whose classification loop finishes with slot state
`(b, r)`, `extract_primary_checkpoint` returns `b` when truthy, else `r`
(which is `null`, Python `None`, when never filled); the base-plus-refiner
graph (refiner tagged by `start_at_step: 5`) yields the base checkpoint
name, and the refiner-only graph yields the refiner checkpoint name. -/
theorem claim_C2 :
    (∀ (g : List (String × JVal)) (b r : JVal),
        epcLoop g (JVal.null, JVal.null) = .ok (b, r) →
        extract_primary_checkpoint g = .ok (if pyTruthy b then b else r)) ∧
    extract_primary_checkpoint baseRefinerGraph =
      .ok (.str "sdxl_base.safetensors") ∧
    extract_primary_checkpoint refinerOnlyGraph =
      .ok (.str "sdxl_refiner.safetensors") := by
  refine ⟨?_, by rfl, by rfl⟩
  intro g b r h
  cases g with
  | nil =>
    simp only [epcLoop] at h
    simp at h
    simp [extract_primary_checkpoint, ← h.1, ← h.2, pyTruthy]
  | cons e rest =>
    simp [extract_primary_checkpoint, h]

/-- C2 witness: the general conjunct applied to the base-plus-refiner
graph. -/
theorem claim_C2_witness :
    extract_primary_checkpoint baseRefinerGraph =
      .ok (if pyTruthy (JVal.str "sdxl_base.safetensors")
           then JVal.str "sdxl_base.safetensors"
           else JVal.str "sdxl_refiner.safetensors") :=
  claim_C2.1 baseRefinerGraph (.str "sdxl_base.safetensors")
    (.str "sdxl_refiner.safetensors") (by rfl)

/-- C3 (amended): a node supplying a truthy `base_ckpt` override value is
written into the base slot unconditionally, even over an already-filled
base slot, and no later standard checkpoint node displaces it while the
pass completes without a Python exception: the extraction returns the
override value. -/
theorem claim_C3 (g1 g2 : List (String × JVal)) (k : String) (nd v : JVal)
    (s : JVal × JVal)
    (hov : overrideVal nd = some v)
    (hg2 : ∀ e ∈ g2, overrideVal e.2 = none)
    (hloop : epcLoop (g1 ++ (k, nd) :: g2) (JVal.null, JVal.null) = .ok s) :
    extract_primary_checkpoint (g1 ++ (k, nd) :: g2) = .ok v := by
  rw [epcLoop_append] at hloop
  cases h1 : epcLoop g1 (JVal.null, JVal.null) with
  | error e => rw [h1] at hloop; simp at hloop
  | ok acc1 =>
    rw [h1] at hloop
    dsimp only at hloop
    obtain ⟨b0, r0⟩ := acc1
    simp only [epcLoop] at hloop
    cases hstep : epcStep (b0, r0) (k, nd) with
    | error e => rw [hstep] at hloop; simp at hloop
    | ok acc2 =>
      rw [hstep] at hloop
      dsimp only at hloop
      obtain ⟨b1, r1⟩ := acc2
      have hb1 : b1 = v := epcStep_base_of_override hov hstep
      obtain ⟨b2, r2⟩ := s
      have htv : pyTruthy v = true := (overrideVal_some_spec hov).2.2
      have hb2 : b2 = b1 := by
        refine epcLoop_base_preserved ?_ hg2 hloop
        rw [hb1]; exact htv
      have hfull : epcLoop (g1 ++ (k, nd) :: g2) (JVal.null, JVal.null) =
          .ok (b2, r2) := by
        rw [epcLoop_append, h1]
        dsimp only
        simp only [epcLoop]
        rw [hstep]
        dsimp only
        exact hloop
      have hne : (g1 ++ (k, nd) :: g2).isEmpty = false := by simp
      simp only [extract_primary_checkpoint, hne, Bool.false_eq_true,
        if_false, hfull]
      rw [hb2, hb1]
      simp [htv]

/-- C3 witness: the override node of `overrideWinsGraph` beats both the
earlier-filled base slot and the later standard node. -/
theorem claim_C3_witness :
    extract_primary_checkpoint overrideWinsGraph =
      .ok (.str "override.safetensors") :=
  claim_C3
    [("1", .obj [("class_type", .str "CheckpointLoaderSimple"),
                 ("inputs", .obj [("ckpt_name", .str "first.safetensors")])])]
    [("3", .obj [("class_type", .str "CheckpointLoaderSimple"),
                 ("inputs", .obj [("ckpt_name", .str "later.safetensors")])])]
    "2"
    (.obj [("class_type", .str "Loader"),
           ("inputs", .obj [("base_ckpt", .str "override.safetensors")])])
    (.str "override.safetensors")
    (.str "override.safetensors", JVal.null)
    (by rfl)
    (by intro e he; rw [List.mem_singleton] at he; subst he; rfl)
    (by rfl)

/-- C3 counterexample: a node whose `base_ckpt` field is present but holds
the empty string does not override; the later standard node wins, refuting
the unconditional-override reading. -/
theorem claim_C3_cex :
    extract_primary_checkpoint emptyOverrideGraph =
      .ok (.str "model.safetensors") ∧
    JVal.str "model.safetensors" ≠ JVal.str "" :=
  ⟨by rfl, by simp⟩

/-- C4 (amended): a node carrying a `ckpt_name` input whose graph key,
lowercased, contains `refiner` (and that does not fire the `base_ckpt`
override) is classified refiner by the loop step: the base slot is left
unchanged, and when the refiner slot is not yet truthy the node checkpoint
name (if truthy) fills the refiner slot. -/
theorem claim_C4 (k : String) (nd b r b2 r2 v : JVal)
    (hkey : strContains (pyLowerStr k) "refiner" = true)
    (hov : overrideVal nd = none)
    (hstep : epcStep (b, r) (k, nd) = .ok (b2, r2)) :
    b2 = b ∧ (pyTruthy r = false → ckptNameVal nd = some v →
      pyTruthy v = true → r2 = v) := by
  cases nd with
  | obj kvs =>
    obtain ⟨b1, p, r2x, r3, h1, h2, h3, h4, hout⟩ := epcStep_obj_ok hstep
    have hb1 : b1 = b := epcOverride_of_none hov h1
    have hisr : ∀ x, epcIsRefiner (nodeClassType (.obj kvs)) (pyLowerStr k)
        (nodeInputs (.obj kvs)) = .ok x → x = true :=
      fun x hx => epcIsRefiner_true_of_title hkey hx
    obtain ⟨p1, p2⟩ := p
    simp only [Prod.mk.injEq] at hout
    constructor
    · have : p1 = b1 := epcStandard_base_of_refiner hisr h2
      rw [hout.1, this, hb1]
    · intro hr hcv htv
      obtain ⟨hcn, hidx⟩ := ckptNameVal_spec hcv
      have hfill := epcStandard_refiner_fill hisr hcn hidx hr h2
      have hp2 : p2 = v := hfill.2
      have hr2x : r2x = p2 :=
        epcRefinerField_of_truthy (by rw [hp2]; exact htv) h3
      have hr3 : r3 = r2x :=
        epcRefinerField_of_truthy (by rw [hr2x, hp2]; exact htv) h4
      rw [hout.2, hr3, hr2x, hp2]
  | str s => simp [epcStep, pyGet] at hstep
  | num n => simp [epcStep, pyGet] at hstep
  | bool bb => simp [epcStep, pyGet] at hstep
  | null => simp [epcStep, pyGet] at hstep
  | arr xs => simp [epcStep, pyGet] at hstep

/-- C4 witness: the theorem applied to the node stored under the key
`refiner ckpt`: the base slot stays `null` and the refiner slot receives
the checkpoint name. -/
theorem claim_C4_witness :
    (strContains (pyLowerStr "refiner ckpt") "refiner" = true ∧
     epcStep (JVal.null, JVal.null) ("refiner ckpt", keyRefinerNode) =
       .ok (JVal.null, .str "ref.safetensors")) ∧
    (JVal.null = JVal.null ∧
      (pyTruthy JVal.null = false →
        ckptNameVal keyRefinerNode = some (.str "ref.safetensors") →
        pyTruthy (JVal.str "ref.safetensors") = true →
        JVal.str "ref.safetensors" = JVal.str "ref.safetensors")) :=
  ⟨⟨by rfl, by rfl⟩,
   claim_C4 "refiner ckpt" keyRefinerNode JVal.null JVal.null JVal.null
     (.str "ref.safetensors") (.str "ref.safetensors")
     (by rfl) (by rfl) (by rfl)⟩

/-- C4 counterexample: the node whose human-assigned `_meta.title` label is
`Refiner Loader` is NOT classified refiner by the code (which lowercases
the graph key, not the label): its checkpoint name lands in the base slot
and is returned ahead of the true base node. -/
theorem claim_C4_cex :
    epcLoop metaTitleRefinerGraph (JVal.null, JVal.null) =
      .ok (.str "ref.safetensors", JVal.null) ∧
    extract_primary_checkpoint metaTitleRefinerGraph =
      .ok (.str "ref.safetensors") ∧
    JVal.str "ref.safetensors" ≠ JVal.str "base.safetensors" :=
  ⟨by rfl, by rfl, by simp⟩

/-- C7: on a graph whose node entry is a list, both public functions raise
`AttributeError` (Python `entry.get` on a list) instead of returning an
optional/sentinel value. -/
theorem claim_C7 :
    extract_primary_checkpoint nonDictNodeGraph = .error "AttributeError" ∧
    get_grouping_signature nonDictNodeGraph = .error "AttributeError" :=
  ⟨by rfl, by rfl⟩

/-- C9 (amended): on the spec scenario graph with the node tag under the
`class_type` key the code reads, the primary checkpoint is the base model
and the grouping signature combines it with the sorted adapter names. -/
theorem claim_C9 :
    extract_primary_checkpoint specScenarioGraph =
      .ok (.str "sdxl_base.safetensors") ∧
    get_grouping_signature specScenarioGraph =
      .ok (.str "sdxl_base.safetensors | style_a.safetensors,style_b.safetensors") :=
  ⟨by rfl, by rfl⟩

/-- C9 counterexample: on the graph exactly as printed in the spec (tag
under `type`), the adapter collection matches nothing and the signature
lacks the adapter part, refuting the spec scenario output. -/
theorem claim_C9_cex :
    extract_primary_checkpoint specScenarioGraphLiteral =
      .ok (.str "sdxl_base.safetensors") ∧
    get_grouping_signature specScenarioGraphLiteral =
      .ok (.str "sdxl_base.safetensors") ∧
    JVal.str "sdxl_base.safetensors" ≠
      JVal.str "sdxl_base.safetensors | style_a.safetensors,style_b.safetensors" :=
  ⟨by rfl, by rfl, by simp⟩

/-- C5: on the two-node ShowText reference cycle the resolver never
returns, whatever call depth (fuel) it is granted: the Python recursion of
`_resolve_text_node_reference` has no depth limit and recurses forever
(until the interpreter recursion limit), instead of stopping at a depth
limit with no value. -/
theorem claim_C5 : ∀ fuel : Nat,
    resolve_text_node_reference fuel cycleGraph (.str "A") = none ∧
    resolve_text_node_reference fuel cycleGraph (.str "B") = none := by
  intro fuel
  induction fuel with
  | zero => exact ⟨rfl, rfl⟩
  | succ n ih => exact ⟨ih.2, ih.1⟩

/-- C6 (amended): a parse failure on a fallback slot falls through to the
next slot, but a parse failure on the `prompt` or `parameters` slot aborts
the whole read with the failed outcome (no later slot is tried). -/
theorem claim_C6 :
    (∀ (parse : String → Option JVal) (info : List (String × JVal))
        (f : String) (fs : List String) (s : String),
        infoGet info f = some (.str s) → s ≠ "" → parse s = none →
        extract_single_fallbacks parse info (f :: fs) =
          extract_single_fallbacks parse info fs) ∧
    (∀ (parse : String → Option JVal) (info : List (String × JVal))
        (s : String),
        infoGet info "prompt" = some (.str s) → s ≠ "" → parse s = none →
        extract_single parse info = .failed) ∧
    (∀ (parse : String → Option JVal) (info : List (String × JVal))
        (s : String),
        infoGet info "parameters" = some (.str s) → s ≠ "" → parse s = none →
        extract_single_params parse info = .failed) := by
  refine ⟨?_, ?_, ?_⟩
  · intro parse info f fs s hs hne hp
    simp [extract_single_fallbacks, hs, pyTruthy, hne, hp]
  · intro parse info s hs hne hp
    simp [extract_single, hs, pyTruthy, hne, hp]
  · intro parse info s hs hne hp
    simp [extract_single_params, hs, pyTruthy, hne, hp]

/-- C6 counterexample: with a malformed `prompt` and a well-formed
`parameters` slot, the read ends `failed` and never returns the parsed
`parameters` data, refuting slot fallthrough on parse failure. -/
theorem claim_C6_cex :
    extract_single toyParse badPromptInfo = .failed ∧
    toyParse "\x7b\x7d" = some (.obj []) ∧
    infoGet badPromptInfo "parameters" = some (.str "\x7b\x7d") :=
  ⟨by rfl, by rfl, by rfl⟩

/-- C6 witness: the prompt-abort conjunct applied to the concrete info of
the counterexample. -/
theorem claim_C6_witness :
    (infoGet badPromptInfo "prompt" = some (.str "not json") ∧
     "not json" ≠ "" ∧ toyParse "not json" = none) ∧
    extract_single toyParse badPromptInfo = .failed :=
  ⟨⟨by rfl, by decide, by rfl⟩,
   claim_C6.2.1 toyParse badPromptInfo "not json" (by rfl) (by decide) (by rfl)⟩

/-- C10: a slot holding the empty string is falsy and treated as absent:
the reader does not parse it and falls through to the next slot, at every
stage of the priority chain; concretely, an empty `prompt` next to a
parseable `parameters` slot yields the parsed `parameters` data even
though the empty string itself does not parse. -/
theorem claim_C10 :
    (∀ (parse : String → Option JVal) (info : List (String × JVal)),
        infoGet info "prompt" = some (.str "") →
        extract_single parse info = extract_single_params parse info) ∧
    (∀ (parse : String → Option JVal) (info : List (String × JVal)),
        infoGet info "parameters" = some (.str "") →
        extract_single_params parse info =
          extract_single_fallbacks parse info
            ["workflow", "extra_pnginfo", "exif"]) ∧
    (∀ (parse : String → Option JVal) (info : List (String × JVal))
        (f : String) (fs : List String),
        infoGet info f = some (.str "") →
        extract_single_fallbacks parse info (f :: fs) =
          extract_single_fallbacks parse info fs) ∧
    extract_single toyParse emptyPromptInfo = .success (.obj []) ∧
    toyParse "" = none := by
  refine ⟨?_, ?_, ?_, by rfl, by rfl⟩
  · intro parse info hs
    simp [extract_single, hs, pyTruthy]
  · intro parse info hs
    simp [extract_single_params, hs, pyTruthy]
  · intro parse info f fs hs
    simp [extract_single_fallbacks, hs, pyTruthy]

/-- C10 witness: the prompt-stage conjunct applied to the concrete info
with an empty `prompt`. -/
theorem claim_C10_witness :
    infoGet emptyPromptInfo "prompt" = some (.str "") ∧
    extract_single toyParse emptyPromptInfo =
      extract_single_params toyParse emptyPromptInfo :=
  ⟨by rfl, claim_C10.1 toyParse emptyPromptInfo (by rfl)⟩

theorem pyContains_error {k : String} {v : JVal} {e : String}
    (h : pyContains k v = .error e) : e = "TypeError" := by
  cases v <;> simp [pyContains] at h <;> exact h.symm

theorem pyIndex_error_of_contains {k : String} {v : JVal} {e : String}
    (hc : pyContains k v = .ok true) (h : pyIndex v k = .error e) :
    e = "TypeError" := by
  cases v with
  | obj kvs =>
    simp only [pyContains] at hc
    simp only [pyIndex] at h
    cases hl : kvs.lookup k with
    | none => rw [hl] at hc; simp at hc
    | some x => rw [hl] at h; simp at h
  | str s => simp [pyIndex] at h; exact h.symm
  | arr xs => simp [pyIndex] at h; exact h.symm
  | num n => simp [pyContains] at hc
  | bool b => simp [pyContains] at hc
  | null => simp [pyContains] at hc

theorem loraEntry_error {nd : JVal} {e : String}
    (h : loraEntry nd = .error e) : e = "TypeError" := by
  cases nd with
  | obj kvs =>
    simp only [loraEntry, JVal.isObj, Bool.not_true, Bool.false_eq_true,
      if_false, pyGet] at h
    split at h
    · -- class_type is LoraLoader
      cases hc : pyContains "lora_name" ((kvs.lookup "inputs").getD (.obj [])) with
      | error err =>
        rw [hc] at h
        simp only [Except.error.injEq] at h
        rw [← h]
        exact pyContains_error hc
      | ok cb =>
        rw [hc] at h
        cases cb with
        | false => simp at h
        | true =>
          dsimp only at h
          cases hx : pyIndex ((kvs.lookup "inputs").getD (.obj [])) "lora_name" with
          | error err =>
            rw [hx] at h
            simp only [Except.error.injEq] at h
            rw [← h]
            exact pyIndex_error_of_contains hc hx
          | ok v => rw [hx] at h; simp at h
    · simp at h
  | str s => simp [loraEntry, JVal.isObj] at h
  | num n => simp [loraEntry, JVal.isObj] at h
  | bool b => simp [loraEntry, JVal.isObj] at h
  | null => simp [loraEntry, JVal.isObj] at h
  | arr xs => simp [loraEntry, JVal.isObj] at h

theorem collectLoras_ok (g : List (String × JVal)) (l : List JVal)
    (h : collectLoras g = .ok l) :
    l = g.filterMap (fun e => loraEntryVal e.2) := by
  induction g generalizing l with
  | nil =>
    simp only [collectLoras] at h
    simp only [Except.ok.injEq] at h
    simp [← h]
  | cons e rest ih =>
    simp only [collectLoras] at h
    cases h1 : loraEntry e.2 with
    | error err => rw [h1] at h; simp at h
    | ok o =>
      rw [h1] at h
      dsimp only at h
      cases h2 : collectLoras rest with
      | error err => rw [h2] at h; simp at h
      | ok tl =>
        rw [h2] at h
        simp only [Except.ok.injEq] at h
        rw [← h, List.filterMap_cons]
        have hv : loraEntryVal e.2 = o := by unfold loraEntryVal; rw [h1]
        rw [hv, ih tl h2]
        cases o with
        | none => simp
        | some v => simp

theorem collectLoras_error (g : List (String × JVal)) (e : String)
    (h : collectLoras g = .error e) : e = "TypeError" := by
  induction g with
  | nil => simp [collectLoras] at h
  | cons x rest ih =>
    simp only [collectLoras] at h
    cases h1 : loraEntry x.2 with
    | error err =>
      rw [h1] at h
      simp only [Except.error.injEq] at h
      rw [← h]
      exact loraEntry_error h1
    | ok o =>
      rw [h1] at h
      dsimp only at h
      cases h2 : collectLoras rest with
      | error err =>
        rw [h2] at h
        simp only [Except.error.injEq] at h
        rw [h] at h2
        exact ih h2
      | ok tl => rw [h2] at h; simp at h

theorem collectLoras_error_iff (g : List (String × JVal)) :
    (∃ e, collectLoras g = .error e) ↔
      ∃ x ∈ g, ∃ e, loraEntry x.2 = .error e := by
  induction g with
  | nil => simp [collectLoras]
  | cons y rest ih =>
    simp only [collectLoras]
    cases h1 : loraEntry y.2 with
    | error err =>
      dsimp only
      constructor
      · intro _; exact ⟨y, by simp, err, h1⟩
      · intro _; exact ⟨err, rfl⟩
    | ok o =>
      dsimp only
      cases h2 : collectLoras rest with
      | error err =>
        dsimp only
        constructor
        · intro _
          obtain ⟨x, hx, e, hex⟩ := ih.mp ⟨err, h2⟩
          exact ⟨x, by simp [hx], e, hex⟩
        · intro _; exact ⟨err, rfl⟩
      | ok tl =>
        dsimp only
        constructor
        · intro ⟨e, he⟩; simp at he
        · intro ⟨x, hx, e, hex⟩
          rcases List.mem_cons.mp hx with hxy | hxr
          · rw [← hxy] at h1
            rw [h1] at hex
            simp at hex
          · obtain ⟨e2, he2⟩ := ih.mpr ⟨x, hxr, e, hex⟩
            rw [he2] at h2
            simp at h2

theorem sortedLoraStrings_perm {l1 l2 : List JVal} (h : l1.Perm l2) :
    sortedLoraStrings l1 = sortedLoraStrings l2 := by
  unfold sortedLoraStrings
  have key : ∀ (a b : List JVal), a.Perm b →
      a.all (fun v => v matches .str _) = true →
      b.all (fun v => v matches .str _) = true := by
    intro a b hab ha
    rw [List.all_eq_true] at ha ⊢
    intro x hx
    exact ha x (hab.mem_iff.mpr hx)
  have hall : l1.all (fun v => v matches .str _) =
      l2.all (fun v => v matches .str _) := by
    cases h1 : l1.all (fun v => v matches .str _) with
    | true => exact (key l1 l2 h h1).symm
    | false =>
      cases h2 : l2.all (fun v => v matches .str _) with
      | true => rw [key l2 l1 h.symm h2] at h1; exact h1.symm
      | false => rfl
  rw [hall]
  cases hq : l2.all (fun v => v matches .str _) with
  | false => rfl
  | true =>
    simp only [eq_self_iff_true, if_true]
    have hperm :
        ((l1.filterMap (fun v => match v with | .str s => some s | _ => none)).dedup).Perm
          ((l2.filterMap (fun v => match v with | .str s => some s | _ => none)).dedup) :=
      (h.filterMap _).dedup
    exact congrArg Except.ok (List.eq_of_perm_of_sorted
      ((List.perm_insertionSort _ _).trans
        (hperm.trans (List.perm_insertionSort _ _).symm))
      (List.sorted_insertionSort _ _) (List.sorted_insertionSort _ _))

/-- C1: permuting the node entries of a graph (in particular permuting the
LoraLoader nodes in iteration order) does not change the grouping
signature, provided the primary checkpoint extraction is unchanged (which
the claim grants as "the same primary checkpoint"): the adapter names are
de-duplicated and sorted, so equal adapter multisets in any order give
identical signature strings, and the raising/non-raising behaviour is also
preserved. -/
theorem claim_C1 (g1 g2 : List (String × JVal)) (hperm : g1.Perm g2)
    (hbase : extract_primary_checkpoint g1 = extract_primary_checkpoint g2) :
    get_grouping_signature g1 = get_grouping_signature g2 := by
  unfold get_grouping_signature
  rw [hbase]
  cases hb : extract_primary_checkpoint g2 with
  | error e => rfl
  | ok base =>
    dsimp only
    cases hc1 : collectLoras g1 with
    | error e1 =>
      have he1 : e1 = "TypeError" := collectLoras_error _ _ hc1
      obtain ⟨e2, hc2⟩ : ∃ e, collectLoras g2 = .error e :=
        (collectLoras_error_iff g2).mpr (by
          obtain ⟨x, hx, e, hex⟩ := (collectLoras_error_iff g1).mp ⟨e1, hc1⟩
          exact ⟨x, hperm.mem_iff.mp hx, e, hex⟩)
      have he2 : e2 = "TypeError" := collectLoras_error _ _ hc2
      rw [hc2, he1, he2]
    | ok l1 =>
      cases hc2 : collectLoras g2 with
      | error e2 =>
        obtain ⟨e1, hc1x⟩ : ∃ e, collectLoras g1 = .error e :=
          (collectLoras_error_iff g1).mpr (by
            obtain ⟨x, hx, e, hex⟩ := (collectLoras_error_iff g2).mp ⟨e2, hc2⟩
            exact ⟨x, hperm.mem_iff.mpr hx, e, hex⟩)
        rw [hc1] at hc1x
        simp at hc1x
      | ok l2 =>
        dsimp only
        have hl : l1.Perm l2 := by
          rw [collectLoras_ok _ _ hc1, collectLoras_ok _ _ hc2]
          exact hperm.filterMap _
        rw [sortedLoraStrings_perm hl]

/-- C1 witness: the two insertion orders of the spec scenario LoraLoader
nodes give the same signature. -/
theorem claim_C1_witness :
    get_grouping_signature specScenarioGraph =
      get_grouping_signature specScenarioGraphSwapped :=
  claim_C1 _ _ (List.Perm.cons _ (List.Perm.swap _ _ _)) (by rfl)

theorem lookup_append_of_none {α : Type} {gs : List (String × α)}
    {k : String} (h : gs.lookup k = none) (v : α) :
    (gs ++ [(k, v)]).lookup k = some v := by
  induction gs with
  | nil => simp [List.lookup]
  | cons a gs' ih =>
    obtain ⟨ak, av⟩ := a
    by_cases hke : k = ak
    · subst hke
      simp [List.lookup] at h
    · have hb : (k == ak) = false := beq_eq_false_iff_ne.mpr hke
      simp only [List.lookup, List.cons_append, hb] at h ⊢
      exact ih h

theorem lookup_append_sing_ne {α : Type} {k k2 : String} (hne : k2 ≠ k)
    (gs : List (String × α)) (v : α) :
    (gs ++ [(k, v)]).lookup k2 = gs.lookup k2 := by
  induction gs with
  | nil =>
    have hb : (k2 == k) = false := beq_eq_false_iff_ne.mpr hne
    simp [List.lookup, hb]
  | cons a gs' ih =>
    obtain ⟨ak, av⟩ := a
    by_cases hke : k2 = ak
    · subst hke
      simp [List.lookup]
    · have hb : (k2 == ak) = false := beq_eq_false_iff_ne.mpr hke
      simp only [List.lookup, List.cons_append, hb]
      exact ih

theorem lookup_map_update {gs : List (String × List (String × String))}
    {k : String} (fi : String × String)
    (h : (gs.lookup k).isSome = true) :
    (gs.map (fun g => if g.1 == k then (g.1, g.2 ++ [fi]) else g)).lookup k
      = some (((gs.lookup k).getD []) ++ [fi]) := by
  induction gs with
  | nil => simp [List.lookup] at h
  | cons a gs' ih =>
    obtain ⟨ak, av⟩ := a
    by_cases hke : ak = k
    · subst hke
      simp only [List.map_cons]
      rw [if_pos (show (ak == ak) = true by simp)]
      simp [List.lookup]
    · have hb : (ak == k) = false := beq_eq_false_iff_ne.mpr hke
      have hb2 : (k == ak) = false := by
        rw [beq_eq_false_iff_ne]
        exact fun hx => hke hx.symm
      simp only [List.map_cons]
      rw [if_neg (show ¬ ((ak == k) = true) by simp [hb])]
      simp only [List.lookup, hb2] at h ⊢
      exact ih h

theorem lookup_map_update_ne {gs : List (String × List (String × String))}
    {k k2 : String} (fi : String × String) (hne : k2 ≠ k) :
    (gs.map (fun g => if g.1 == k then (g.1, g.2 ++ [fi]) else g)).lookup k2
      = gs.lookup k2 := by
  induction gs with
  | nil => simp
  | cons a gs' ih =>
    obtain ⟨ak, av⟩ := a
    simp only [List.map_cons]
    by_cases hke : ak = k
    · subst hke
      have hb : (k2 == ak) = false := beq_eq_false_iff_ne.mpr hne
      rw [if_pos (show (ak == ak) = true by simp)]
      simp only [List.lookup, hb]
      exact ih
    · have hb : (ak == k) = false := beq_eq_false_iff_ne.mpr hke
      rw [if_neg (show ¬ ((ak == k) = true) by simp [hb])]
      by_cases hk2 : k2 = ak
      · subst hk2
        simp [List.lookup]
      · have hb2 : (k2 == ak) = false := beq_eq_false_iff_ne.mpr hk2
        simp only [List.lookup, hb2]
        exact ih

theorem addToGroup_lookup_self
    (gs : List (String × List (String × String))) (k : String)
    (fi : String × String) :
    ((addToGroup gs k fi).lookup k).getD []
      = ((gs.lookup k).getD []) ++ [fi] := by
  unfold addToGroup
  cases hs : (gs.lookup k).isSome with
  | true =>
    simp only [hs, if_true]
    rw [lookup_map_update fi hs]
    rfl
  | false =>
    simp only [hs, Bool.false_eq_true, if_false]
    have hn : gs.lookup k = none := Option.not_isSome_iff_eq_none.mp (by simp [hs])
    rw [lookup_append_of_none hn [fi], hn]
    rfl

theorem addToGroup_lookup_ne
    (gs : List (String × List (String × String))) (k k2 : String)
    (fi : String × String) (hne : k2 ≠ k) :
    (addToGroup gs k fi).lookup k2 = gs.lookup k2 := by
  unfold addToGroup
  cases hs : (gs.lookup k).isSome with
  | true =>
    simp only [hs, if_true]
    exact lookup_map_update_ne fi hne
  | false =>
    simp only [hs, Bool.false_eq_true, if_false]
    exact lookup_append_sing_ne hne gs [fi]

theorem addToGroup_mem_self (gs : List (String × List (String × String)))
    (k : String) (fi : String × String) :
    fi ∈ ((addToGroup gs k fi).lookup k).getD [] := by
  rw [addToGroup_lookup_self]
  simp

theorem addToGroup_mem_mono {gs : List (String × List (String × String))}
    {k2 : String} {x : String × String}
    (k : String) (fi : String × String)
    (hx : x ∈ (gs.lookup k2).getD []) :
    x ∈ ((addToGroup gs k fi).lookup k2).getD [] := by
  by_cases hk : k2 = k
  · subst hk
    rw [addToGroup_lookup_self]
    exact List.mem_append_left _ hx
  · rw [addToGroup_lookup_ne gs k k2 fi hk]
    exact hx

theorem groupStep_spec {results : String → Option (List (String × JVal))}
    {st : GroupState} {fi : String × String} {st2 : GroupState}
    (h : groupStep results st fi = .ok st2) :
    st2.failed = st.failed + (if fileNoGraph results fi then 1 else 0) ∧
    st2.unknown = st.unknown + (if fileUnknownCkpt results fi then 1 else 0) ∧
    (∀ k x, x ∈ (st.groups.lookup k).getD [] →
      x ∈ (st2.groups.lookup k).getD []) ∧
    (fileNoGraph results fi = true →
      fi ∈ (st2.groups.lookup "No_Metadata").getD []) ∧
    (fileUnknownCkpt results fi = true →
      fi ∈ (st2.groups.lookup "Unknown_Checkpoint").getD []) := by
  simp only [groupStep] at h
  cases hmd : ((results fi.1).getD []).isEmpty with
  | true =>
    have hng : fileNoGraph results fi = true := hmd
    have hun : fileUnknownCkpt results fi = false := by
      simp [fileUnknownCkpt, hmd]
    rw [hmd] at h
    simp only [eq_self_iff_true, if_true, Except.ok.injEq] at h
    subst h
    refine ⟨by simp [hng], by simp [hun], ?_, ?_, ?_⟩
    · exact fun k x hx => addToGroup_mem_mono _ _ hx
    · intro _; exact addToGroup_mem_self _ _ _
    · intro hx; rw [hun] at hx; cases hx
  | false =>
    rw [hmd] at h
    simp only [Bool.false_eq_true, if_false] at h
    have hng : fileNoGraph results fi = false := hmd
    cases hepc : extract_primary_checkpoint ((results fi.1).getD []) with
    | error e => rw [hepc] at h; simp at h
    | ok primary =>
      rw [hepc] at h
      dsimp only at h
      cases htp : pyTruthy primary with
      | true =>
        have hun : fileUnknownCkpt results fi = false := by
          simp [fileUnknownCkpt, hmd, hepc, htp]
        rw [htp] at h
        simp only [eq_self_iff_true, if_true] at h
        cases primary with
        | str s =>
          simp only [Except.ok.injEq] at h
          subst h
          refine ⟨by simp [hng], by simp [hun], ?_, ?_, ?_⟩
          · exact fun k x hx => addToGroup_mem_mono _ _ hx
          · intro hx; rw [hng] at hx; cases hx
          · intro hx; rw [hun] at hx; cases hx
        | num n => simp at h
        | bool bb => simp at h
        | null => simp at h
        | arr xs => simp at h
        | obj kvs => simp at h
      | false =>
        have hun : fileUnknownCkpt results fi = true := by
          simp [fileUnknownCkpt, hmd, hepc, htp]
        rw [htp] at h
        simp only [Bool.false_eq_true, if_false, Except.ok.injEq] at h
        subst h
        refine ⟨by simp [hng], by simp [hun], ?_, ?_, ?_⟩
        · exact fun k x hx => addToGroup_mem_mono _ _ hx
        · intro hx; rw [hng] at hx; cases hx
        · intro _; exact addToGroup_mem_self _ _ _

theorem groupLoop_spec (results : String → Option (List (String × JVal))) :
    ∀ (files : List (String × String)) (st0 st : GroupState),
    groupLoop results files st0 = .ok st →
    st.failed = st0.failed + files.countP (fileNoGraph results) ∧
    st.unknown = st0.unknown + files.countP (fileUnknownCkpt results) ∧
    (∀ k x, x ∈ (st0.groups.lookup k).getD [] →
      x ∈ (st.groups.lookup k).getD []) ∧
    (∀ fi ∈ files, fileNoGraph results fi = true →
      fi ∈ (st.groups.lookup "No_Metadata").getD []) ∧
    (∀ fi ∈ files, fileUnknownCkpt results fi = true →
      fi ∈ (st.groups.lookup "Unknown_Checkpoint").getD []) := by
  intro files
  induction files with
  | nil =>
    intro st0 st h
    simp only [groupLoop, Except.ok.injEq] at h
    subst h
    simp
  | cons fi rest ih =>
    intro st0 st h
    simp only [groupLoop] at h
    cases hstep : groupStep results st0 fi with
    | error e => rw [hstep] at h; simp at h
    | ok st1 =>
      rw [hstep] at h
      dsimp only at h
      obtain ⟨hf, hu, hmono, hnm, hunk⟩ := groupStep_spec hstep
      obtain ⟨hf2, hu2, hmono2, hnm2, hunk2⟩ := ih st1 st h
      refine ⟨?_, ?_, ?_, ?_, ?_⟩
      · rw [hf2, hf, List.countP_cons]; omega
      · rw [hu2, hu, List.countP_cons]; omega
      · exact fun k x hx => hmono2 k x (hmono k x hx)
      · intro fj hfj hfjn
        rcases List.mem_cons.mp hfj with hfe | hj
        · subst hfe; exact hmono2 _ _ (hnm hfjn)
        · exact hnm2 fj hj hfjn
      · intro fj hfj hfjn
        rcases List.mem_cons.mp hfj with hfe | hj
        · subst hfe; exact hmono2 _ _ (hunk hfjn)
        · exact hunk2 fj hj hfjn

/-- C8 (amended): the batch classifier counts and places files by three
disjoint cases: no graph or an empty (falsy) graph goes to the
`No_Metadata` sentinel group and the failed-extraction counter; a truthy
graph with no truthy primary checkpoint goes to the `Unknown_Checkpoint`
sentinel group and the unknown-checkpoint counter; the two counters stay
separate.  The spec batch scenario (two files sharing a checkpoint, one
with no metadata) produces exactly the stated groups and counters, with
total = 3 files. -/
theorem claim_C8 :
    (∀ (files : List (String × String))
        (results : String → Option (List (String × JVal))) (st : GroupState),
        group_by_checkpoint files results = .ok st →
        st.failed = files.countP (fileNoGraph results) ∧
        st.unknown = files.countP (fileUnknownCkpt results) ∧
        (∀ fi ∈ files, fileNoGraph results fi = true →
          fi ∈ (st.groups.lookup "No_Metadata").getD []) ∧
        (∀ fi ∈ files, fileUnknownCkpt results fi = true →
          fi ∈ (st.groups.lookup "Unknown_Checkpoint").getD [])) ∧
    group_by_checkpoint scenarioFiles scenarioResults =
      .ok scenarioGroupState ∧
    scenarioFiles.length = 3 := by
  refine ⟨?_, by rfl, by rfl⟩
  intro files results st h
  obtain ⟨hf, hu, _, hnm, hunk⟩ :=
    groupLoop_spec results files ⟨[], 0, 0⟩ st h
  simp only [Nat.zero_add] at hf hu
  exact ⟨hf, hu, hnm, hunk⟩

/-- C8 witness: the general conjunct applied to the spec batch scenario. -/
theorem claim_C8_witness :
    scenarioGroupState.failed =
      scenarioFiles.countP (fileNoGraph scenarioResults) ∧
    scenarioGroupState.unknown =
      scenarioFiles.countP (fileUnknownCkpt scenarioResults) ∧
    (∀ fi ∈ scenarioFiles, fileNoGraph scenarioResults fi = true →
      fi ∈ (scenarioGroupState.groups.lookup "No_Metadata").getD []) ∧
    (∀ fi ∈ scenarioFiles, fileUnknownCkpt scenarioResults fi = true →
      fi ∈ (scenarioGroupState.groups.lookup "Unknown_Checkpoint").getD []) :=
  claim_C8.1 scenarioFiles scenarioResults scenarioGroupState (by rfl)

/-- C8 counterexample: a file whose graph is present but empty (Python
truthiness treats `\x7b\x7d` like `None`) is placed in the `No_Metadata`
group and counted by the failed-extraction counter, not in the
`Unknown_Checkpoint` group with the unknown counter as the claim states
for any present graph with no resolvable checkpoint. -/
theorem claim_C8_cex :
    emptyGraphResults "f.png" = some [] ∧
    group_by_checkpoint emptyGraphFiles emptyGraphResults =
      .ok ⟨[("No_Metadata", [("f.png", "")])], 0, 1⟩ :=
  ⟨rfl, by rfl⟩
